import Mathlib

/-!
Verification of the task-list application (src/app.ts) against its
specification.  The program keeps its authoritative state in the DOM: the
li children of the todoList and completedList elements.  We embed that
state shallowly: each rendered li is a node carrying the Task record that
the code reads back from it (data-id, the textContent of .task-text and
.task-description, data-created), and each event handler becomes a pure
function from the DOM state to a new DOM state together with the list of
setTimeout callbacks it schedules and a flag telling whether it invoked
the (debounced) saveToStorage synchronously.  JS strings are modelled as
lists of characters so that trimming and length bounds are elementary.
-/

namespace TaskList

/-- JS strings, modelled as lists of characters. -/
abbrev Str := List Char

/-- JS String.prototype.trim: remove whitespace from both ends. -/
def trimStr (s : Str) : Str :=
  ((s.dropWhile Char.isWhitespace).reverse.dropWhile Char.isWhitespace).reverse

/-- The Task record (app.ts lines 2 to 7).  createdAt is the millisecond
timestamp, a natural number. -/
structure Task where
  id : String
  title : Str
  description : Str
  createdAt : Nat
deriving Repr, DecidableEq

/-- escapeHtml (app.ts 65 to 69): assigning text to the textContent of a
div and reading back innerHTML escapes the three markup-significant
characters, per character. -/
def escapeChar (c : Char) : Str :=
  if c = '&' then "&amp;".toList
  else if c = '<' then "&lt;".toList
  else if c = '>' then "&gt;".toList
  else [c]

/-- escapeHtml applied to a whole string. -/
def escapeHtml (text : Str) : Str :=
  text.flatMap escapeChar

/-- One rendered li element: a DOM node identity (distinguishing the
physical element, since a removed node stays removable as a no-op) plus
the Task record recoverable from its attributes and text content. -/
structure Node where
  nodeId : Nat
  task : Task
deriving Repr, DecidableEq

/-- The in-memory state src/app.ts works against: the li children of
todoList (pending partition) and completedList (completed partition), in
rendered order, plus a counter supplying fresh node identities. -/
structure Dom where
  todoList : List Node
  completedList : List Node
  nextNode : Nat
deriving Repr, DecidableEq

/-- li.remove(): detach the element wherever it is attached; a no-op when
the element was already removed. -/
def Dom.removeNode (d : Dom) (nid : Nat) : Dom :=
  { d with
      todoList := d.todoList.filter (fun n => n.nodeId != nid),
      completedList := d.completedList.filter (fun n => n.nodeId != nid) }

/-- The body of a setTimeout callback that a mutation handler schedules:
the completion animation callback (app.ts 296 to 303), the restore
animation callback (318 to 325) and the delete animation callback (452 to
457).  Each captures the node to remove and, for the first two, the Task
record read from the li at click time. -/
inductive TimeoutAct
  | completeFin (nid : Nat) (t : Task)
  | restoreFin (nid : Nat) (t : Task)
  | removeFin (nid : Nat)
deriving Repr, DecidableEq

/-- A pending setTimeout: its delay in milliseconds and its callback. -/
structure Sched where
  delay : Nat
  act : TimeoutAct
deriving Repr, DecidableEq

/-- Run one scheduled callback.  Each removes the captured li, for
complete and restore builds a fresh element (createTaskElement) holding
the captured Task and prepends it to the destination list, and calls
saveToStorage; the returned flag records that saveToStorage was
triggered. -/
def runTimeoutAct : TimeoutAct → Dom → Dom × Bool
  | .completeFin nid t, d =>
    let d1 := d.removeNode nid
    ({ d1 with
        completedList := ⟨d1.nextNode, t⟩ :: d1.completedList,
        nextNode := d1.nextNode + 1 }, true)
  | .restoreFin nid t, d =>
    let d1 := d.removeNode nid
    ({ d1 with
        todoList := ⟨d1.nextNode, t⟩ :: d1.todoList,
        nextNode := d1.nextNode + 1 }, true)
  | .removeFin nid, d => (d.removeNode nid, true)

/-- What one event handler did: the DOM state when the handler returned,
the setTimeout callbacks it left pending, and whether it called
saveToStorage synchronously before returning. -/
structure HandlerResult where
  dom : Dom
  scheds : List Sched
  persist : Bool
deriving Repr, DecidableEq

/-- addItem (app.ts 193 to 224).  Reads and trims the two input field
values; returns without any effect when the trimmed title is empty;
otherwise builds a Task from a fresh generateId value and Date.now
(passed here as parameters), prepends the new element to todoList and
calls saveToStorage before returning. -/
def addItem (rawTitle rawDescription : Str) (freshId : String) (now : Nat)
    (d : Dom) : HandlerResult :=
  let title := trimStr rawTitle
  let description := trimStr rawDescription
  if title = [] then ⟨d, [], false⟩
  else
    ⟨{ d with
        todoList := ⟨d.nextNode, ⟨freshId, title, description, now⟩⟩ :: d.todoList,
        nextNode := d.nextNode + 1 }, [], true⟩

/-- completeItem (app.ts 284 to 304).  The click handler reads the Task
back from the li synchronously, starts the completion animation, and
defers the whole list mutation (and the saveToStorage call) to a 400 ms
setTimeout; the handler itself changes neither list. -/
def completeItem (li : Node) (d : Dom) : HandlerResult :=
  ⟨d, [⟨400, .completeFin li.nodeId li.task⟩], false⟩

/-- restoreItem (app.ts 306 to 326): same shape as completeItem with a
300 ms animation, moving toward todoList. -/
def restoreItem (li : Node) (d : Dom) : HandlerResult :=
  ⟨d, [⟨300, .restoreFin li.nodeId li.task⟩], false⟩

/-- removeItem (app.ts 450 to 458): defers li.remove() and saveToStorage
to a 300 ms setTimeout. -/
def removeItem (li : Node) (d : Dom) : HandlerResult :=
  ⟨d, [⟨300, .removeFin li.nodeId⟩], false⟩

/-- Let every timeout a handler scheduled run, in scheduling order, and
return the resulting DOM state. -/
def settle (r : HandlerResult) : Dom :=
  r.scheds.foldl (fun d s => (runTimeoutAct s.act d).1) r.dom

/-- The storage key for the pending partition (app.ts 17 to 21). -/
def STORAGE_TODOS : String := "taskList_todos"

/-- The storage key for the completed partition (app.ts 17 to 21). -/
def STORAGE_COMPLETED : String := "taskList_completed"

/-- The serialized payload for one storage key: the ordered Task records
the flush body reads back from the rendered list items (app.ts 100 to
124). -/
def serializeList (ns : List Node) : List Task := ns.map Node.task

/-- Outcome of running the flush body of the debounced saveToStorage
(app.ts 97 to 130): the keys written, the diagnostic messages the
function logged, and whether an exception escaped the callback. -/
structure FlushOutcome where
  written : List String
  logged : List String
  escaped : Bool
deriving Repr, DecidableEq

/-- Sequential localStorage.setItem calls with no surrounding try/catch,
against a store whose set may throw (quota exceeded, store unavailable):
a throwing key aborts the remaining writes and the exception escapes; the
function body contains no console logging and no handler, so the logged
list stays empty. -/
def runWrites (failing : String → Bool) : List (String × List Task) → FlushOutcome
  | [] => ⟨[], [], false⟩
  | (k, _) :: rest =>
    if failing k then ⟨[], [], true⟩
    else
      let o := runWrites failing rest
      ⟨k :: o.written, o.logged, o.escaped⟩

/-- saveToStorage flush body (app.ts 97 to 130): serialize both lists
from the DOM, then two setItem calls in order, with no try/catch. -/
def saveToStorage (d : Dom) (failing : String → Bool) : FlushOutcome :=
  runWrites failing
    [(STORAGE_TODOS, serializeList d.todoList),
     (STORAGE_COMPLETED, serializeList d.completedList)]

/-- The outcome of localStorage.getItem for one key followed by
JSON.parse, as loadFromStorage performs it (app.ts 134 to 135): the key
may be absent (getItem yields null, the code substitutes the empty array
literal), its value may fail to parse (JSON.parse throws), or it parses
to a sequence of Task records. -/
inductive StoredVal
  | absent
  | malformed
  | parsed (tasks : List Task)
deriving Repr, DecidableEq

/-- JSON.parse over the defaulted getItem result: absent keys parse to
the empty list, malformed values throw. -/
def parseStored : StoredVal → Except Unit (List Task)
  | .absent => .ok []
  | .malformed => .error ()
  | .parsed ts => .ok ts

/-- The shape validation loadFromStorage applies per record (app.ts 138
and 146): keep a task only when its trimmed title is non-empty. -/
def validTitle (t : Task) : Bool := !(trimStr t.title).isEmpty

/-- Give appended elements consecutive fresh node identities. -/
def mkNodes (start : Nat) : List Task → List Node
  | [] => []
  | t :: ts => ⟨start, t⟩ :: mkNodes (start + 1) ts

/-- loadFromStorage (app.ts 132 to 158), run at startup on empty lists.
One try block wraps both JSON.parse calls and both append loops, with the
parses performed before any append; the catch logs the error and returns,
so any parse failure leaves both lists empty.  On success each partition
keeps, in order, its records with non-empty trimmed title.  The returned
flag records whether the catch logged a diagnostic. -/
def loadFromStorage (todosVal completedVal : StoredVal) : Dom × Bool :=
  match parseStored todosVal, parseStored completedVal with
  | .ok todos, .ok completed =>
    let keptTodos := todos.filter validTitle
    let keptCompleted := completed.filter validTitle
    (⟨mkNodes 0 keptTodos, mkNodes keptTodos.length keptCompleted,
      keptTodos.length + keptCompleted.length⟩, false)
  | _, _ => (⟨[], [], 0⟩, true)

/-- What one save or cancel interaction in inline-editing mode did
(editItem, app.ts 328 to 448): whether the item is still in editing mode,
whether the transient error cue (the danger border) was shown, the
title and description redisplayed when editing mode was exited, and
whether saveToStorage was called. -/
structure EditOutcome where
  editing : Bool
  errorCue : Bool
  content : Option (Str × Str)
  persist : Bool
deriving Repr, DecidableEq

/-- The save closure (app.ts 365 to 405): trim both input values; an
empty trimmed title refocuses the input, flashes the danger border and
returns with the inputs still in place; otherwise the escaped trimmed
values are written back as the item markup, editing mode ends and
saveToStorage runs. -/
def saveEdit (titleValue descValue : Str) : EditOutcome :=
  if trimStr titleValue = [] then ⟨true, true, none, false⟩
  else ⟨false, false, some (trimStr titleValue, trimStr descValue), true⟩

/-- The cancel closure (app.ts 407 to 428): redisplay the title and
description captured when editing began, end editing mode, and do not
call saveToStorage. -/
def cancelEdit (currentTitle currentDescription : Str) : EditOutcome :=
  ⟨false, false, some (currentTitle, currentDescription), false⟩

/-- The keypress listeners on both edit inputs (app.ts 433 to 439): the
Enter key invokes the save closure, other keys do nothing. -/
def editKeypress (key : String) (titleValue descValue : Str) : Option EditOutcome :=
  if key = "Enter" then some (saveEdit titleValue descValue) else none

/-- The keydown listeners on both edit inputs (app.ts 441 to 447): the
Escape key invokes the cancel closure, other keys do nothing. -/
def editKeydown (key : String) (currentTitle currentDescription : Str) :
    Option EditOutcome :=
  if key = "Escape" then some (cancelEdit currentTitle currentDescription) else none

/-- handleDrop (app.ts 519 to 544) on one list, with the dragged item at
draggedIndex and the drop target at targetIndex.  insertBefore moves the
dragged element: it is detached and reinserted before the reference
node.  When the dragged item moved forward the reference is the sibling
after the target, which after the detach sits at position
(targetIndex - 1) + 1; otherwise the reference is the target itself,
still at targetIndex.  The handler does nothing when target and dragged
coincide (and the caller guarantees both indices are positions of li
elements of the same list). -/
def handleDrop (l : List α) (draggedIndex targetIndex : Nat) : List α :=
  if draggedIndex = targetIndex then l
  else
    match l[draggedIndex]? with
    | none => l
    | some dragged =>
      if draggedIndex < targetIndex then
        (l.eraseIdx draggedIndex).insertIdx ((targetIndex - 1) + 1) dragged
      else
        (l.eraseIdx draggedIndex).insertIdx targetIndex dragged

/-- The markup for the optional description span (app.ts 232 to 234, and
identically 378 to 380 and 408 to 410): empty description renders
nothing, otherwise a span holding the escaped description. -/
def descriptionHtml (description : Str) : Str :=
  if description = [] then []
  else
    "<span class=\"task-description\">".toList ++ escapeHtml description
      ++ "</span>".toList

/-- The innerHTML createTaskElement assigns to a li (app.ts 237 to 248
for the completed variant, 258 to 269 for the pending variant), as a
function of the interpolated user text.  Whitespace between tags is
dropped; the tag structure and the interpolation points are kept
exactly. -/
def createTaskElementHtml (isCompleted : Bool) (title description : Str) : Str :=
  "<span class=\"drag-handle\">⋮⋮</span><div class=\"checkbox\"></div><div class=\"task-content\"><span class=\"task-text\">".toList
    ++ escapeHtml title
    ++ "</span>".toList
    ++ descriptionHtml description
    ++ "</div><div class=\"task-actions\">".toList
    ++ (if isCompleted then
          "<button class=\"action-btn restore-btn\" title=\"Restore\">↩</button>".toList
        else
          "<button class=\"action-btn edit-btn\" title=\"Edit\">✎</button>".toList)
    ++ "<button class=\"action-btn remove-btn\" title=\"Delete\">✕</button></div>".toList

/-- The innerHTML the save closure (app.ts 382 to 385) and the cancel
closure (app.ts 412 to 415) assign to the task-content div; the two
templates are identical, applied to the new and the captured text
respectively. -/
def editContentHtml (title description : Str) : Str :=
  "<span class=\"task-text\">".toList ++ escapeHtml title ++ "</span>".toList
    ++ descriptionHtml description

/-- The number of tag-opening characters in a markup string. -/
def tagCount (s : Str) : Nat := s.count '<'

/-- The node identities present in the DOM, both lists together. -/
def Dom.nodeIds (d : Dom) : List Nat :=
  (d.todoList ++ d.completedList).map Node.nodeId

/-- Well-formedness of the DOM state: element identities are distinct and
all below the fresh counter.  This holds for the empty initial state and
is maintained by every transition above. -/
def Dom.Wf (d : Dom) : Prop :=
  d.nodeIds.Nodup ∧ ∀ i ∈ d.nodeIds, i < d.nextNode

instance (d : Dom) : Decidable d.Wf := by
  unfold Dom.Wf
  infer_instance

/-- A concrete pending task used for closed instances. -/
def sampleTask : Task := ⟨"t1", ['a'], [], 0⟩

/-- A concrete completed task used for closed instances. -/
def sampleDone : Task := ⟨"c1", ['x'], [], 5⟩

/-- A DOM holding exactly the sample pending task. -/
def sampleDom : Dom := ⟨[⟨0, sampleTask⟩], [], 1⟩

/-- The DOM after the completion callback captured from the sample task
has run twice, as happens when its checkbox is clicked twice within the
400 ms completion animation. -/
def doubleCompleteDom : Dom :=
  (runTimeoutAct (.completeFin 0 sampleTask)
    ((runTimeoutAct (.completeFin 0 sampleTask) sampleDom).1)).1

/-- The DOM after additionally restoring the newer of the two completed
copies (the head of the completed list, node identity 2). -/
def doubleCompleteRestoredDom : Dom :=
  (runTimeoutAct (.restoreFin 2 sampleTask) doubleCompleteDom).1

/-- The record invariant of the data model: non-empty title of at most
100 characters, description of at most 100 characters. -/
def TaskOk (t : Task) : Prop :=
  t.title ≠ [] ∧ t.title.length ≤ 100 ∧ t.description.length ≤ 100

/-- Modelled from the spec: the title and description input fields live
in index.html, which is not under src/; per the data model (title and
description at most 100 characters) and the 100-character counter the
code maintains for the description field, both fields carry a maxlength
of 100, so any value addItem reads from them is at most 100 characters
long. -/
def inputFieldOk (value : Str) : Prop := value.length ≤ 100

instance (t : Task) : Decidable (TaskOk t) := by
  unfold TaskOk
  infer_instance

instance (value : Str) : Decidable (inputFieldOk value) := by
  unfold inputFieldOk
  infer_instance

/- ---------------------------------------------------------------- -/
/- Helper lemmas                                                    -/
/- ---------------------------------------------------------------- -/

lemma trimStr_length_le (s : Str) : (trimStr s).length ≤ s.length := by
  unfold trimStr
  calc ((s.dropWhile Char.isWhitespace).reverse.dropWhile Char.isWhitespace).reverse.length
      = ((s.dropWhile Char.isWhitespace).reverse.dropWhile Char.isWhitespace).length := by
        rw [List.length_reverse]
    _ ≤ (s.dropWhile Char.isWhitespace).reverse.length :=
        (List.dropWhile_sublist _).length_le
    _ = (s.dropWhile Char.isWhitespace).length := by rw [List.length_reverse]
    _ ≤ s.length := (List.dropWhile_sublist _).length_le

lemma trimStr_ne_nil_of_ne {s : Str} (h : trimStr s ≠ []) : s ≠ [] := by
  intro hs
  exact h (by simp [hs, trimStr])

lemma escapeChar_count_lt (c : Char) : (escapeChar c).count '<' = 0 := by
  unfold escapeChar
  split
  · decide
  · split
    · decide
    · split
      · decide
      · rename_i h1 h2 h3
        simp [List.count_cons, h2]

lemma escapeChar_count_gt (c : Char) : (escapeChar c).count '>' = 0 := by
  unfold escapeChar
  split
  · decide
  · split
    · decide
    · split
      · decide
      · rename_i h1 h2 h3
        simp [List.count_cons, h3]

lemma escapeHtml_count_lt (s : Str) : (escapeHtml s).count '<' = 0 := by
  induction s with
  | nil => decide
  | cons c cs ih =>
    unfold escapeHtml at *
    rw [List.flatMap_cons, List.count_append, ih, escapeChar_count_lt]

lemma escapeHtml_count_gt (s : Str) : (escapeHtml s).count '>' = 0 := by
  induction s with
  | nil => decide
  | cons c cs ih =>
    unfold escapeHtml at *
    rw [List.flatMap_cons, List.count_append, ih, escapeChar_count_gt]

lemma filter_nodeId_eq_self {l : List Node} {k : Nat}
    (h : ∀ n ∈ l, n.nodeId ≠ k) : l.filter (fun n => n.nodeId != k) = l := by
  apply List.filter_eq_self.mpr
  intro n hn
  simpa using h n hn

lemma eraseIdx_insertIdx_getElem :
    ∀ (l : List α) (n : Nat) (h : n < l.length),
      (l.eraseIdx n).insertIdx n l[n] = l
  | _ :: _, 0, _ => rfl
  | a :: t, n + 1, h => by
    simp only [List.eraseIdx_cons_succ, List.insertIdx_succ_cons,
      List.getElem_cons_succ]
    rw [eraseIdx_insertIdx_getElem t n (by simpa using h)]

lemma mkNodes_map_task : ∀ (start : Nat) (ts : List Task),
    (mkNodes start ts).map Node.task = ts
  | _, [] => rfl
  | start, t :: ts => by
    simp only [mkNodes, List.map_cons, mkNodes_map_task (start + 1) ts]

lemma mkNodes_mem : ∀ {start : Nat} {ts : List Task} {n : Node},
    n ∈ mkNodes start ts → n.task ∈ ts := by
  intro start ts
  induction ts generalizing start with
  | nil => intro n h; simp [mkNodes] at h
  | cons t ts ih =>
    intro n h
    simp only [mkNodes, List.mem_cons] at h
    rcases h with h | h
    · subst h; simp
    · exact List.mem_cons_of_mem _ (ih h)

lemma handleDrop_eq_move {α : Type} (l : List α) (i j : Nat)
    (hi : i < l.length) (hij : i ≠ j) :
    handleDrop l i j = (l.eraseIdx i).insertIdx j l[i] := by
  have hx : l[i]? = some l[i] := List.getElem?_eq_getElem hi
  simp only [handleDrop, if_neg hij, hx]
  by_cases h : i < j
  · rw [if_pos h]
    congr 1
    omega
  · rw [if_neg h]

lemma wf_disjoint {d : Dom} (hwf : d.Wf) :
    ∀ a ∈ d.todoList, ∀ b ∈ d.completedList, a.nodeId ≠ b.nodeId := by
  intro a ha b hb
  have h := hwf.1
  rw [Dom.nodeIds, List.map_append] at h
  rcases List.nodup_append.mp h with ⟨-, -, hdisj⟩
  exact fun he => hdisj (List.mem_map_of_mem _ ha) (he ▸ List.mem_map_of_mem _ hb)

lemma wf_lt_of_mem_todo {d : Dom} (hwf : d.Wf) {m : Node}
    (hm : m ∈ d.todoList) : m.nodeId < d.nextNode :=
  hwf.2 _ (List.mem_map_of_mem _ (List.mem_append_left _ hm))

lemma wf_lt_of_mem_completed {d : Dom} (hwf : d.Wf) {m : Node}
    (hm : m ∈ d.completedList) : m.nodeId < d.nextNode :=
  hwf.2 _ (List.mem_map_of_mem _ (List.mem_append_right _ hm))

/- ---------------------------------------------------------------- -/
/- Claim theorems                                                   -/
/- ---------------------------------------------------------------- -/

/-- C1.  When the trimmed title is empty, addItem changes nothing,
schedules nothing and does not call saveToStorage; when it is non-empty,
addItem prepends exactly one new element carrying the fresh id, the
trimmed inputs and the supplied timestamp, leaves the completed list
untouched, grows the pending list by exactly one, and calls
saveToStorage. -/
theorem addItem_spec (rawTitle rawDescription : Str) (freshId : String)
    (now : Nat) (d : Dom) :
    (trimStr rawTitle = [] →
      addItem rawTitle rawDescription freshId now d = ⟨d, [], false⟩) ∧
    (trimStr rawTitle ≠ [] →
      (addItem rawTitle rawDescription freshId now d).dom.todoList =
          ⟨d.nextNode, ⟨freshId, trimStr rawTitle, trimStr rawDescription, now⟩⟩
            :: d.todoList ∧
      (addItem rawTitle rawDescription freshId now d).dom.completedList =
          d.completedList ∧
      (addItem rawTitle rawDescription freshId now d).dom.todoList.length =
          d.todoList.length + 1 ∧
      (addItem rawTitle rawDescription freshId now d).persist = true) := by
  constructor
  · intro h
    simp [addItem, h]
  · intro h
    simp [addItem, h]

/-- Closed instance of addItem_spec: the empty-title no-op at a
whitespace title, and the growth by one at a concrete non-empty title. -/
theorem addItem_spec_witness :
    (trimStr " ".toList = [] ∧
      addItem " ".toList [] "a" 3 ⟨[], [], 0⟩ = ⟨⟨[], [], 0⟩, [], false⟩) ∧
    (trimStr " x ".toList ≠ [] ∧
      (addItem " x ".toList [] "a" 3 ⟨[], [], 0⟩).dom.todoList.length = 0 + 1) := by
  refine ⟨⟨by decide, (addItem_spec " ".toList [] "a" 3 ⟨[], [], 0⟩).1 (by decide)⟩,
    ⟨by decide, ?_⟩⟩
  have h := (addItem_spec " x ".toList [] "a" 3 ⟨[], [], 0⟩).2 (by decide)
  simpa using h.2.2.1

/-- C2.  The debounced flush of saveToStorage contains no exception
handling: when the first setItem call throws (quota exceeded, store
unavailable), the exception escapes the timer callback, no key at all is
written (the completed-tasks write is skipped), and the function logs
nothing — while on a healthy store both keys are written in order.  The
in-memory DOM state is untouched by the flush either way, since the
mutation happened in the handler that scheduled it. -/
theorem saveToStorage_failure_unhandled :
    saveToStorage sampleDom (fun k => k == STORAGE_TODOS) = ⟨[], [], true⟩ ∧
    saveToStorage sampleDom (fun k => k == STORAGE_COMPLETED) =
      ⟨[STORAGE_TODOS], [], true⟩ ∧
    saveToStorage sampleDom (fun _ => false) =
      ⟨[STORAGE_TODOS, STORAGE_COMPLETED], [], false⟩ := by
  decide

/-- C3 counterexample.  Clicking the completion checkbox of the sample
task mutates nothing within the event handler: the handler returns with
both partitions exactly as before and the whole list mutation sitting in
a 400 ms setTimeout, so the state mutation of completeItem is itself
deferred, not merely its persistence. -/
theorem completeItem_not_synchronous_cex :
    (completeItem ⟨0, sampleTask⟩ sampleDom).dom = sampleDom ∧
    (completeItem ⟨0, sampleTask⟩ sampleDom).scheds =
      [⟨400, .completeFin 0 sampleTask⟩] ∧
    settle (completeItem ⟨0, sampleTask⟩ sampleDom) ≠ sampleDom ∧
    (settle (completeItem ⟨0, sampleTask⟩ sampleDom)).completedList.map Node.task
      = [sampleTask] := by
  decide

/-- C3 amended.  addItem performs its state mutation synchronously and
schedules no timeout; completeItem, restoreItem and removeItem leave the
state untouched in the handler and schedule exactly one animation
timeout (400 ms, 300 ms, 300 ms respectively) whose callback performs
the documented mutation and triggers the debounced persistence; no
handler calls saveToStorage synchronously except addItem on valid
input. -/
theorem mutation_deferral_spec (li : Node) (d : Dom) (rawTitle rawDescription : Str)
    (freshId : String) (now : Nat) :
    ((completeItem li d).dom = d ∧
      (completeItem li d).scheds = [⟨400, .completeFin li.nodeId li.task⟩] ∧
      (completeItem li d).persist = false ∧
      (settle (completeItem li d)).completedList.map Node.task =
        li.task ::
          ((d.completedList.filter (fun n => n.nodeId != li.nodeId)).map Node.task)) ∧
    ((restoreItem li d).dom = d ∧
      (restoreItem li d).scheds = [⟨300, .restoreFin li.nodeId li.task⟩] ∧
      (restoreItem li d).persist = false ∧
      (settle (restoreItem li d)).todoList.map Node.task =
        li.task ::
          ((d.todoList.filter (fun n => n.nodeId != li.nodeId)).map Node.task)) ∧
    ((removeItem li d).dom = d ∧
      (removeItem li d).scheds = [⟨300, .removeFin li.nodeId⟩] ∧
      (removeItem li d).persist = false ∧
      settle (removeItem li d) = d.removeNode li.nodeId) ∧
    ((addItem rawTitle rawDescription freshId now d).scheds = [] ∧
      settle (addItem rawTitle rawDescription freshId now d) =
        (addItem rawTitle rawDescription freshId now d).dom) := by
  have hs : (addItem rawTitle rawDescription freshId now d).scheds = [] := by
    simp only [addItem]
    split <;> rfl
  refine ⟨⟨rfl, rfl, rfl,
      by simp [settle, completeItem, runTimeoutAct, Dom.removeNode]⟩,
    ⟨rfl, rfl, rfl,
      by simp [settle, restoreItem, runTimeoutAct, Dom.removeNode]⟩,
    ⟨rfl, rfl, rfl, rfl⟩, hs, by simp [settle, hs]⟩

/-- C4 counterexample.  With a malformed pending-tasks entry and a
perfectly valid completed-tasks entry, loadFromStorage loads nothing into
the completed partition (its single try block aborts before any append),
although the same completed entry loads fine when the pending entry is
merely absent — so a failure in one partition does affect the other. -/
theorem loadFromStorage_cross_partition_cex :
    (loadFromStorage .malformed (.parsed [sampleDone])).1.completedList = [] ∧
    (loadFromStorage .malformed (.parsed [sampleDone])).2 = true ∧
    (loadFromStorage .absent (.parsed [sampleDone])).1.completedList =
      [⟨0, sampleDone⟩] := by
  decide

/-- C4 amended.  Loading never crashes: an absent key behaves exactly
like an empty stored sequence; when both entries parse, each partition
receives its records with non-empty trimmed title, in order, and nothing
is logged; when either entry is malformed, the single catch logs the
failure and both partitions fall back to empty (not only the failing
one). -/
theorem loadFromStorage_spec (todosVal completedVal : StoredVal) :
    (loadFromStorage .absent completedVal =
      loadFromStorage (.parsed []) completedVal) ∧
    (∀ ts cs, todosVal = .parsed ts → completedVal = .parsed cs →
      loadFromStorage todosVal completedVal =
        (⟨mkNodes 0 (ts.filter validTitle),
          mkNodes (ts.filter validTitle).length (cs.filter validTitle),
          (ts.filter validTitle).length + (cs.filter validTitle).length⟩,
         false)) ∧
    ((todosVal = .malformed ∨ completedVal = .malformed) →
      loadFromStorage todosVal completedVal = (⟨[], [], 0⟩, true)) := by
  refine ⟨rfl, ?_, ?_⟩
  · intro ts cs ht hc
    subst ht; subst hc
    rfl
  · intro h
    rcases h with h | h
    · subst h; rfl
    · subst h
      cases todosVal <;> rfl

/-- Closed instance of loadFromStorage_spec: a valid pending entry loads
alone, and a malformed pending entry empties both partitions with a
logged diagnostic. -/
theorem loadFromStorage_spec_witness :
    loadFromStorage (.parsed [sampleTask]) (.parsed []) =
      (⟨[⟨0, sampleTask⟩], [], 1⟩, false) ∧
    loadFromStorage .malformed .absent = (⟨[], [], 0⟩, true) := by
  constructor
  · have h := (loadFromStorage_spec (.parsed [sampleTask]) (.parsed [])).2.1
      [sampleTask] [] rfl rfl
    rw [h]; decide
  · exact (loadFromStorage_spec .malformed .absent).2.2 (Or.inl rfl)

/-- C5 (violated by the code).  Clicking the completion checkbox of the
sole pending task twice within its 400 ms completion animation is
possible (the first click leaves the li attached and its handler armed,
as the first conjunct shows) and schedules the captured completion
callback twice.  After both callbacks run the completed partition holds
two elements with the same task id; restoring one of them then leaves
that id present in both partitions at once, refuting the at-most-one-
partition invariant precisely in the repeated-trigger case the claim
includes. -/
theorem double_complete_restore_breaks_invariant :
    completeItem ⟨0, sampleTask⟩ sampleDom =
      ⟨sampleDom, [⟨400, .completeFin 0 sampleTask⟩], false⟩ ∧
    completeItem ⟨0, sampleTask⟩
        (completeItem ⟨0, sampleTask⟩ sampleDom).dom =
      ⟨sampleDom, [⟨400, .completeFin 0 sampleTask⟩], false⟩ ∧
    doubleCompleteDom.completedList.map (fun n => n.task.id) = ["t1", "t1"] ∧
    doubleCompleteDom.todoList = [] ∧
    doubleCompleteDom.completedList.headD ⟨0, sampleTask⟩ = ⟨2, sampleTask⟩ ∧
    restoreItem ⟨2, sampleTask⟩ doubleCompleteDom =
      ⟨doubleCompleteDom, [⟨300, .restoreFin 2 sampleTask⟩], false⟩ ∧
    doubleCompleteRestoredDom.todoList.map (fun n => n.task.id) = ["t1"] ∧
    doubleCompleteRestoredDom.completedList.map (fun n => n.task.id) = ["t1"] := by
  decide

/-- C6.  The record invariant (non-empty title of at most 100 characters,
description of at most 100 characters) is established by addItem under
the 100-character bound of the input fields, preserved by the edit save
path under the maxlength bound the code places on both edit inputs, and
holds for every record loadFromStorage admits from stored entries whose
string fields respect the length bounds. -/
theorem record_invariant_preserved
    (rawTitle rawDescription : Str) (freshId : String) (now : Nat) (d : Dom)
    (titleValue descValue : Str) (ts cs : List Task) :
    (inputFieldOk rawTitle → inputFieldOk rawDescription →
      trimStr rawTitle ≠ [] →
      TaskOk ⟨freshId, trimStr rawTitle, trimStr rawDescription, now⟩ ∧
      (addItem rawTitle rawDescription freshId now d).dom.todoList.head?.map
          Node.task =
        some ⟨freshId, trimStr rawTitle, trimStr rawDescription, now⟩) ∧
    (∀ t : Task, titleValue.length ≤ 100 → descValue.length ≤ 100 →
      trimStr titleValue ≠ [] →
      TaskOk { t with title := trimStr titleValue,
                      description := trimStr descValue }) ∧
    ((∀ t ∈ ts ++ cs, t.title.length ≤ 100 ∧ t.description.length ≤ 100) →
      ∀ n ∈ (loadFromStorage (.parsed ts) (.parsed cs)).1.todoList ++
            (loadFromStorage (.parsed ts) (.parsed cs)).1.completedList,
        TaskOk n.task) := by
  refine ⟨?_, ?_, ?_⟩
  · intro h1 h2 h3
    refine ⟨⟨h3, le_trans (trimStr_length_le _) h1,
      le_trans (trimStr_length_le _) h2⟩, ?_⟩
    simp [addItem, h3]
  · intro t h1 h2 h3
    exact ⟨h3, le_trans (trimStr_length_le _) h1,
      le_trans (trimStr_length_le _) h2⟩
  · intro hb n hn
    have hmem : n.task ∈ ts.filter validTitle ∨ n.task ∈ cs.filter validTitle := by
      rcases List.mem_append.mp hn with h | h
      · exact Or.inl (mkNodes_mem h)
      · exact Or.inr (mkNodes_mem h)
    have htask : n.task ∈ ts ++ cs ∧ validTitle n.task = true := by
      rcases hmem with h | h
      · rcases List.mem_filter.mp h with ⟨h1, h2⟩
        exact ⟨List.mem_append.mpr (Or.inl h1), h2⟩
      · rcases List.mem_filter.mp h with ⟨h1, h2⟩
        exact ⟨List.mem_append.mpr (Or.inr h1), h2⟩
    have hbounds := hb n.task htask.1
    have htrim : trimStr n.task.title ≠ [] := by
      have h2 := htask.2
      simp only [validTitle, Bool.not_eq_true'] at h2
      intro hnil
      rw [hnil] at h2
      simp at h2
    exact ⟨trimStr_ne_nil_of_ne htrim, hbounds.1, hbounds.2⟩

/-- Closed instance of record_invariant_preserved: the invariant at a
concrete added task, a concrete committed edit, and a concrete loaded
state. -/
theorem record_invariant_preserved_witness :
    TaskOk ⟨"a", trimStr " x ".toList, trimStr " ".toList, 3⟩ ∧
    TaskOk { sampleTask with title := trimStr "y".toList,
                             description := trimStr "".toList } ∧
    (∀ n ∈ (loadFromStorage (.parsed [sampleTask]) (.parsed [sampleDone])).1.todoList ++
          (loadFromStorage (.parsed [sampleTask]) (.parsed [sampleDone])).1.completedList,
      TaskOk n.task) :=
  ⟨((record_invariant_preserved " x ".toList " ".toList "a" 3 sampleDom
      [] [] [] []).1 (by decide) (by decide) (by decide)).1,
   (record_invariant_preserved [] [] "a" 3 sampleDom
      "y".toList "".toList [] []).2.1 sampleTask (by decide) (by decide) (by decide),
   (record_invariant_preserved [] [] "a" 3 sampleDom [] []
      [sampleTask] [sampleDone]).2.2 (by decide)⟩

/-- C7.  In inline editing of a pending task: confirming with an empty
trimmed title keeps editing mode active with the transient error cue and
calls no persistence; confirming with a non-empty trimmed title commits
the trimmed title and description, exits editing mode and triggers
persistence; cancel exits editing mode redisplaying the captured text
without persistence; the Enter key runs exactly the save closure and the
Escape key exactly the cancel closure. -/
theorem editItem_save_cancel_spec
    (titleValue descValue currentTitle currentDescription : Str) :
    (trimStr titleValue = [] →
      saveEdit titleValue descValue = ⟨true, true, none, false⟩) ∧
    (trimStr titleValue ≠ [] →
      saveEdit titleValue descValue =
        ⟨false, false, some (trimStr titleValue, trimStr descValue), true⟩) ∧
    cancelEdit currentTitle currentDescription =
      ⟨false, false, some (currentTitle, currentDescription), false⟩ ∧
    editKeypress "Enter" titleValue descValue =
      some (saveEdit titleValue descValue) ∧
    editKeydown "Escape" currentTitle currentDescription =
      some (cancelEdit currentTitle currentDescription) := by
  refine ⟨?_, ?_, rfl, rfl, rfl⟩
  · intro h
    simp [saveEdit, h]
  · intro h
    simp [saveEdit, h]

/-- Closed instance of editItem_save_cancel_spec: the rejected empty
save and the committed non-empty save at concrete values. -/
theorem editItem_save_cancel_spec_witness :
    saveEdit "  ".toList "d".toList = ⟨true, true, none, false⟩ ∧
    saveEdit " new ".toList " d ".toList =
      ⟨false, false, some (trimStr " new ".toList, trimStr " d ".toList), true⟩ :=
  ⟨(editItem_save_cancel_spec "  ".toList "d".toList [] []).1 (by decide),
   (editItem_save_cancel_spec " new ".toList " d ".toList [] []).2.1 (by decide)⟩

/-- C8.  Within one partition, dropping the item at draggedIndex onto
the item at targetIndex and then dragging it back (a drop of the item,
now at targetIndex, onto the item at draggedIndex) restores the original
order, for any valid distinct index pair. -/
theorem handleDrop_roundtrip {α : Type} (l : List α) (i j : Nat)
    (hi : i < l.length) (hj : j < l.length) (hij : i ≠ j) :
    handleDrop (handleDrop l i j) j i = l := by
  have hle : (l.eraseIdx i).length = l.length - 1 := by
    rw [List.length_eraseIdx]
    simp [hi]
  have hj1 : j ≤ (l.eraseIdx i).length := by omega
  have hjm : j < ((l.eraseIdx i).insertIdx j l[i]).length := by
    rw [List.length_insertIdx _ _ hj1]
    omega
  have hmj : ((l.eraseIdx i).insertIdx j l[i])[j] = l[i] :=
    List.getElem_insertIdx_self _ _ _ hj1
  have h1 : handleDrop l i j = (l.eraseIdx i).insertIdx j l[i] :=
    handleDrop_eq_move l i j hi hij
  have h2 : handleDrop ((l.eraseIdx i).insertIdx j l[i]) j i =
      (((l.eraseIdx i).insertIdx j l[i]).eraseIdx j).insertIdx i
        (((l.eraseIdx i).insertIdx j l[i])[j]) :=
    handleDrop_eq_move _ j i hjm (Ne.symm hij)
  rw [h1, h2, hmj, List.eraseIdx_insertIdx]
  exact eraseIdx_insertIdx_getElem l i hi

/-- Closed instance of handleDrop_roundtrip on a three-element pending
partition, dragging the first item onto the last and back. -/
theorem handleDrop_roundtrip_witness :
    (0 : Nat) < ([sampleTask, sampleDone, sampleTask] : List Task).length ∧
    (2 : Nat) < ([sampleTask, sampleDone, sampleTask] : List Task).length ∧
    (0 : Nat) ≠ 2 ∧
    handleDrop (handleDrop [sampleTask, sampleDone, sampleTask] 0 2) 2 0 =
      [sampleTask, sampleDone, sampleTask] :=
  ⟨by decide, by decide, by decide,
    handleDrop_roundtrip [sampleTask, sampleDone, sampleTask] 0 2
      (by decide) (by decide) (by decide)⟩

/-- C9.  From a well-formed state, completing a pending task and letting
both animations and callbacks run, then restoring the element that
appeared at the head of the completed partition, puts a record with
unchanged id, title, description and createdAt back into the pending
partition (at the front, not necessarily its original index) and leaves
the completed partition as before; symmetrically for restoring a
completed task and completing it again. -/
theorem complete_restore_roundtrip (d : Dom) (n : Node) (hwf : d.Wf) :
    (n ∈ d.todoList →
      (settle (completeItem n d)).completedList.headD n =
        ⟨d.nextNode, n.task⟩ ∧
      (settle (restoreItem ⟨d.nextNode, n.task⟩
          (settle (completeItem n d)))).todoList.map Node.task =
        n.task ::
          (d.todoList.filter (fun m => m.nodeId != n.nodeId)).map Node.task ∧
      (settle (restoreItem ⟨d.nextNode, n.task⟩
          (settle (completeItem n d)))).completedList.map Node.task =
        d.completedList.map Node.task) ∧
    (n ∈ d.completedList →
      (settle (restoreItem n d)).todoList.headD n = ⟨d.nextNode, n.task⟩ ∧
      (settle (completeItem ⟨d.nextNode, n.task⟩
          (settle (restoreItem n d)))).completedList.map Node.task =
        n.task ::
          (d.completedList.filter (fun m => m.nodeId != n.nodeId)).map Node.task ∧
      (settle (completeItem ⟨d.nextNode, n.task⟩
          (settle (restoreItem n d)))).todoList.map Node.task =
        d.todoList.map Node.task) := by
  constructor
  · intro hn
    have hcfilter : d.completedList.filter (fun m => m.nodeId != n.nodeId) =
        d.completedList :=
      filter_nodeId_eq_self (fun m hm => Ne.symm (wf_disjoint hwf n hn m hm))
    have hafterC : settle (completeItem n d) =
        ⟨d.todoList.filter (fun m => m.nodeId != n.nodeId),
         ⟨d.nextNode, n.task⟩ :: d.completedList, d.nextNode + 1⟩ := by
      simp [settle, completeItem, runTimeoutAct, Dom.removeNode, hcfilter]
    have h1 : ∀ m ∈ d.todoList.filter (fun m => m.nodeId != n.nodeId),
        m.nodeId ≠ d.nextNode := by
      intro m hm
      have hlt := wf_lt_of_mem_todo hwf (List.mem_filter.mp hm).1
      omega
    have h2 : ∀ m ∈ d.completedList, m.nodeId ≠ d.nextNode := by
      intro m hm
      have hlt := wf_lt_of_mem_completed hwf hm
      omega
    have hafterR : settle (restoreItem ⟨d.nextNode, n.task⟩
        (settle (completeItem n d))) =
        ⟨⟨d.nextNode + 1, n.task⟩ ::
           d.todoList.filter (fun m => m.nodeId != n.nodeId),
         d.completedList, d.nextNode + 2⟩ := by
      rw [hafterC]
      simp [settle, restoreItem, runTimeoutAct, Dom.removeNode,
        filter_nodeId_eq_self h1, filter_nodeId_eq_self h2]
    rw [hafterC] at hafterR
    rw [hafterC, hafterR]
    simp
  · intro hn
    have htfilter : d.todoList.filter (fun m => m.nodeId != n.nodeId) =
        d.todoList :=
      filter_nodeId_eq_self (fun m hm => wf_disjoint hwf m hm n hn)
    have hafterR : settle (restoreItem n d) =
        ⟨⟨d.nextNode, n.task⟩ :: d.todoList,
         d.completedList.filter (fun m => m.nodeId != n.nodeId),
         d.nextNode + 1⟩ := by
      simp [settle, restoreItem, runTimeoutAct, Dom.removeNode, htfilter]
    have h1 : ∀ m ∈ d.completedList.filter (fun m => m.nodeId != n.nodeId),
        m.nodeId ≠ d.nextNode := by
      intro m hm
      have hlt := wf_lt_of_mem_completed hwf (List.mem_filter.mp hm).1
      omega
    have h2 : ∀ m ∈ d.todoList, m.nodeId ≠ d.nextNode := by
      intro m hm
      have hlt := wf_lt_of_mem_todo hwf hm
      omega
    have hafterC : settle (completeItem ⟨d.nextNode, n.task⟩
        (settle (restoreItem n d))) =
        ⟨d.todoList,
         ⟨d.nextNode + 1, n.task⟩ ::
           d.completedList.filter (fun m => m.nodeId != n.nodeId),
         d.nextNode + 2⟩ := by
      rw [hafterR]
      simp [settle, completeItem, runTimeoutAct, Dom.removeNode,
        filter_nodeId_eq_self h1, filter_nodeId_eq_self h2]
    rw [hafterR] at hafterC
    rw [hafterR, hafterC]
    simp

/-- Closed instance of complete_restore_roundtrip: completing then
restoring the sample pending task next to one completed task. -/
theorem complete_restore_roundtrip_witness :
    (⟨[⟨0, sampleTask⟩], [⟨1, sampleDone⟩], 2⟩ : Dom).Wf ∧
    (settle (restoreItem ⟨2, sampleTask⟩
        (settle (completeItem ⟨0, sampleTask⟩
          ⟨[⟨0, sampleTask⟩], [⟨1, sampleDone⟩], 2⟩)))).todoList.map Node.task =
      sampleTask ::
        (((⟨[⟨0, sampleTask⟩], [⟨1, sampleDone⟩], 2⟩ : Dom)).todoList.filter
          (fun m => m.nodeId != 0)).map Node.task :=
  ⟨by decide,
    ((complete_restore_roundtrip ⟨[⟨0, sampleTask⟩], [⟨1, sampleDone⟩], 2⟩
      ⟨0, sampleTask⟩ (by decide)).1 (by decide)).2.1⟩

set_option maxRecDepth 4000 in
/-- C10.  Escaped user text contains no tag delimiters, and consequently
every render path that interpolates user text — createTaskElement for
both partitions (initial creation, load, complete, restore) and the
identical save and cancel templates of inline editing — produces markup
whose tag-opening characters are exactly those of the fixed template
(plus the two of the description span when a description is present):
user text never contributes markup structure. -/
theorem user_text_never_unescaped (title description : Str) (isCompleted : Bool) :
    (∀ s : Str, (escapeHtml s).count '<' = 0 ∧ (escapeHtml s).count '>' = 0) ∧
    tagCount (createTaskElementHtml isCompleted title description) =
      tagCount (createTaskElementHtml isCompleted [] []) +
        (if description = [] then 0 else 2) ∧
    tagCount (editContentHtml title description) =
      tagCount (editContentHtml [] []) + (if description = [] then 0 else 2) := by
  have hsp1 : List.count '<' "<span class=\"task-description\">".toList = 1 := by
    decide
  have hsp2 : List.count '<' "</span>".toList = 1 := by decide
  refine ⟨fun s => ⟨escapeHtml_count_lt s, escapeHtml_count_gt s⟩, ?_, ?_⟩
  · unfold tagCount createTaskElementHtml descriptionHtml
    by_cases hd : description = [] <;>
      simp only [hd, reduceIte, List.count_append, escapeHtml_count_lt,
        List.count_nil, hsp1, hsp2] <;>
      try omega
  · unfold tagCount editContentHtml descriptionHtml
    by_cases hd : description = [] <;>
      simp only [hd, reduceIte, List.count_append, escapeHtml_count_lt,
        List.count_nil, hsp1, hsp2]

end TaskList
